import Mathlib

/-!
Shallow embedding of `src/ViewModels/GeoDataSourceViewModel.js` (nationalmap).

The view model tracks per-layer UI state (`isEnabled`, `isShown`,
`isLegendVisible`), reacts to knockout change notifications with handlers that
call engine hooks and emit analytics events, and offers a `zoomTo` operation.
All external side effects (engine calls, the now-viewing collection, analytics,
console logging, camera flights) are recorded in an explicit `Effect` list;
the mutable fields of the JS object form the `ViewModel` record.  Rectangle
coordinates are rationals standing for the JS numbers; `Date.now()` is passed
in as a natural-number parameter `now` (milliseconds).
-/

namespace GeoData

/-- Cesium `Rectangle`: geographic bounds (west, south, east, north), radians. -/
structure Rectangle where
  west : ℚ
  south : ℚ
  east : ℚ
  north : ℚ
deriving DecidableEq, Repr

/-- The IEEE-754 double closest to pi: the value of `Math.PI` used by Cesium. -/
def piDouble : ℚ := 884279719003555 / 281474976710656

/-- Cesium `Rectangle.MAX_VALUE`: the whole-world rectangle
`(-Math.PI, -Math.PI/2, Math.PI, Math.PI/2)`. -/
def Rectangle.MAX_VALUE : Rectangle :=
  ⟨-piDouble, -piDouble / 2, piDouble, piDouble / 2⟩

/-- `CesiumMath.EPSILON3 = 0.001`. -/
def EPSILON3 : ℚ := 1 / 1000

/-- `Rectangle.clone`: field-by-field copy into a fresh rectangle (the source
clones into the module-level `scratchRectangle`). -/
def Rectangle.clone (r : Rectangle) : Rectangle :=
  ⟨r.west, r.south, r.east, r.north⟩

/-- Externally visible side effects of the view model: engine hook calls,
now-viewing list mutation, analytics (`ga`) events, console output, and the
camera/viewport motions requested by `zoomTo`. -/
inductive Effect where
  | enableInCesium
  | disableInCesium
  | enableInLeaflet
  | disableInLeaflet
  | showInCesium
  | hideInCesium
  | showInLeaflet
  | hideInLeaflet
  | nowViewingAdd
  | nowViewingRemove
  | gaEvent (action : String) (label : String) (value : Option Int)
  | consoleLog (msg : String)
  | cameraFlight (destination : Rectangle)
  | fitBounds (bounds : Rectangle)
deriving DecidableEq, Repr

/-- The catalog context: which renderer handles are defined.  (`nowViewing`
is always present; its mutations are recorded as effects.) -/
structure Context where
  hasCesiumScene : Bool
  hasLeafletMap : Bool
deriving DecidableEq, Repr

/-- The mutable fields of a `GeoDataSourceViewModel` instance.
`enabledDate`/`shownDate` are the private `_enabledDate`/`_shownDate`
timestamps (milliseconds since epoch, `none` when undefined). -/
structure ViewModel where
  name : String
  rectangle : Option Rectangle
  legendUrl : Option String
  dataUrlType : Option String
  dataUrl : Option String
  dataCustodian : String
  metadataUrl : Option String
  isEnabled : Bool
  isShown : Bool
  isLegendVisible : Bool
  enabledDate : Option Nat
  shownDate : Option Nat
deriving DecidableEq, Repr

/-- The constructor `GeoDataSourceViewModel(context)`: initial field values. -/
def GeoDataSourceViewModel (name : String) : ViewModel :=
  { name := name
    rectangle := some Rectangle.MAX_VALUE
    legendUrl := none
    dataUrlType := none
    dataUrl := none
    dataCustodian := "Unknown"
    metadataUrl := none
    isEnabled := false
    isShown := false
    isLegendVisible := false
    enabledDate := none
    shownDate := none }

/-- JavaScript truthiness of a possibly-undefined numeric timestamp, as used
by `if (viewModel._enabledDate)`: false when undefined and when zero. -/
def truthyTime : Option Nat → Bool
  | none => false
  | some t => t != 0

/-- `((now - date) / 1000.0) | 0`: elapsed whole seconds, truncated toward
zero (`Int.tdiv` is truncated division, matching `| 0` on the quotient). -/
def durationSeconds (now date : Nat) : Int :=
  Int.tdiv ((now : Int) - (date : Int)) 1000

/-- The `isShownChanged` subscriber: engine show/hide hooks, then either the
"shown" event (recording `_shownDate`) or the "hidden" event with an elapsed
duration preferring `_shownDate` (a `defined` test) and falling back to a
truthy `_enabledDate`. -/
def isShownChanged (ctx : Context) (now : Nat) (vm : ViewModel) :
    ViewModel × List Effect :=
  let cesiumEffects :=
    if ctx.hasCesiumScene then
      [if vm.isShown then Effect.showInCesium else Effect.hideInCesium]
    else []
  let leafletEffects :=
    if ctx.hasLeafletMap then
      [if vm.isShown then Effect.showInLeaflet else Effect.hideInLeaflet]
    else []
  if vm.isShown then
    ({ vm with shownDate := some now },
      cesiumEffects ++ leafletEffects ++ [Effect.gaEvent "shown" vm.name none])
  else
    let duration : Option Int :=
      match vm.shownDate with
      | some t => some (durationSeconds now t)
      | none =>
        if truthyTime vm.enabledDate then
          some (durationSeconds now (vm.enabledDate.getD 0))
        else none
    (vm,
      cesiumEffects ++ leafletEffects ++ [Effect.gaEvent "hidden" vm.name duration])

/-- The `isEnabledChanged` subscriber: engine enable/disable hooks; the
auto-show write `viewModel.isShown = true` (which fires the `isShown`
subscriber synchronously on the same stack, since the value changes); then
the now-viewing add/remove with the "added"/"removed" analytics events. -/
def isEnabledChanged (ctx : Context) (now : Nat) (vm : ViewModel) :
    ViewModel × List Effect :=
  let cesiumEffects :=
    if ctx.hasCesiumScene then
      [if vm.isEnabled then Effect.enableInCesium else Effect.disableInCesium]
    else []
  let leafletEffects :=
    if ctx.hasLeafletMap then
      [if vm.isEnabled then Effect.enableInLeaflet else Effect.disableInLeaflet]
    else []
  let step :=
    if vm.isEnabled && !vm.isShown then
      isShownChanged ctx now { vm with isShown := true }
    else (vm, [])
  let vm1 := step.1
  if vm1.isEnabled then
    ({ vm1 with enabledDate := some now },
      cesiumEffects ++ leafletEffects ++ step.2 ++
        [Effect.nowViewingAdd, Effect.gaEvent "added" vm1.name none])
  else
    let duration : Option Int :=
      if truthyTime vm1.enabledDate then
        some (durationSeconds now (vm1.enabledDate.getD 0))
      else none
    (vm1,
      cesiumEffects ++ leafletEffects ++ step.2 ++
        [Effect.nowViewingRemove, Effect.gaEvent "removed" vm1.name duration])

/-- Assignment to the tracked `isEnabled` property: knockout notifies the
subscriber only when the primitive value actually changes. -/
def setIsEnabled (ctx : Context) (now : Nat) (vm : ViewModel) (value : Bool) :
    ViewModel × List Effect :=
  if vm.isEnabled == value then ({ vm with isEnabled := value }, [])
  else isEnabledChanged ctx now { vm with isEnabled := value }

/-- Assignment to the tracked `isShown` property. -/
def setIsShown (ctx : Context) (now : Nat) (vm : ViewModel) (value : Bool) :
    ViewModel × List Effect :=
  if vm.isShown == value then ({ vm with isShown := value }, [])
  else isShownChanged ctx now { vm with isShown := value }

/-- `toggleEnabled()`: flips `isEnabled` and returns the new value read back
from the property after the subscriber has run. -/
def toggleEnabled (ctx : Context) (now : Nat) (vm : ViewModel) :
    ViewModel × List Effect × Bool :=
  let r := setIsEnabled ctx now vm (!vm.isEnabled)
  (r.1, r.2, r.1.isEnabled)

/-- `toggleShown()`: flips `isShown` and returns the new value. -/
def toggleShown (ctx : Context) (now : Nat) (vm : ViewModel) :
    ViewModel × List Effect × Bool :=
  let r := setIsShown ctx now vm (!vm.isShown)
  (r.1, r.2, r.1.isShown)

/-- The epsilon padding inside `zoomTo`: any dimension narrower than
`EPSILON3` is widened by `EPSILON3` on each side. -/
def padRectangle (r : Rectangle) : Rectangle :=
  let r1 :=
    if r.east - r.west < EPSILON3 then
      { r with east := r.east + EPSILON3, west := r.west - EPSILON3 }
    else r
  if r1.north - r1.south < EPSILON3 then
    { r1 with north := r1.north + EPSILON3, south := r1.south - EPSILON3 }
  else r1

/-- `zoomTo()`: guarded no-op unless enabled, shown and `rectangle` defined;
refusal with a console warning when the rectangle is wider than 3.14 rad;
otherwise the "zoomTo" analytics event and a camera flight (Cesium) and/or a
bounds fit (Leaflet) targeting the padded clone of the rectangle. -/
def zoomTo (ctx : Context) (vm : ViewModel) : ViewModel × List Effect :=
  if !vm.isEnabled || !vm.isShown then (vm, [])
  else
    match vm.rectangle with
    | none => (vm, [])
    | some r =>
      if r.east - r.west > 314 / 100 then
        (vm, [Effect.consoleLog "Extent is wider than half the world.  Ignoring zoomto"])
      else
        let rect := padRectangle (Rectangle.clone r)
        (vm,
          [Effect.gaEvent "zoomTo" vm.name none] ++
            (if ctx.hasCesiumScene then [Effect.cameraFlight rect] else []) ++
            (if ctx.hasLeafletMap then [Effect.fitBounds rect] else []))

/-- The lowercase spellings of the extensions in `imageUrlRegex`. -/
def imageExts : List (List Char) :=
  [['p', 'n', 'g'], ['j', 'p', 'g'], ['j', 'p', 'e', 'g'], ['g', 'i', 'f']]

/-- Case-folding prefix test: the pattern (given lowercase) heads the text. -/
def startsWithFold : List Char → List Char → Bool
  | [], _ => true
  | _ :: _, [] => false
  | p :: ps, c :: cs => (Char.toLower c == p) && startsWithFold ps cs

/-- One alternation step of `imageUrlRegex`: `(png|jpg|jpeg|gif)` with the
`i` flag, matched at the head of the remaining text. -/
def extMatch (cs : List Char) : Bool :=
  startsWithFold ['p', 'n', 'g'] cs || startsWithFold ['j', 'p', 'g'] cs ||
    startsWithFold ['j', 'p', 'e', 'g'] cs || startsWithFold ['g', 'i', 'f'] cs

/-- Unanchored search for `imageUrlRegex = /[.\x2f](png|jpg|jpeg|gif)/i`:
somewhere in the text, a dot or slash immediately followed by one of the
extensions, ignoring letter case. -/
def imageUrlMatch : List Char → Bool
  | [] => false
  | c :: rest => ((c == '.' || c == '/') && extMatch rest) || imageUrlMatch rest

/-- The `hasLegend` derived property. -/
def hasLegend (legendUrl : Option String) : Bool :=
  match legendUrl with
  | none => false
  | some u => decide (0 < u.length)

/-- The `legendIsImage` derived property: false when `legendUrl` is undefined
or empty, else the truthiness of `legendUrl.match(imageUrlRegex)`. -/
def legendIsImage (legendUrl : Option String) : Bool :=
  match legendUrl with
  | none => false
  | some u => if u.length = 0 then false else imageUrlMatch u.toList

/-- Written from the spec sentence "`legendIsImage` true iff `legendUrl`
matches a small set of image file extensions (png/jpg/jpeg/gif),
case-insensitive": the URL contains an occurrence of one of the extension
names preceded by a dot or a slash, ignoring letter case. -/
def SpecImageMatch (s : String) : Prop :=
  ∃ a d e b, s.toList = a ++ d :: (e ++ b) ∧ (d = '.' ∨ d = '/') ∧
    e.map Char.toLower ∈ imageExts

/-! ### Helper lemmas about the change handlers -/

theorem isShownChanged_isEnabled (ctx : Context) (now : Nat) (vm : ViewModel) :
    (isShownChanged ctx now vm).1.isEnabled = vm.isEnabled := by
  cases hs : vm.isShown <;> simp [isShownChanged, hs]

theorem isShownChanged_isShown (ctx : Context) (now : Nat) (vm : ViewModel) :
    (isShownChanged ctx now vm).1.isShown = vm.isShown := by
  cases hs : vm.isShown <;> simp [isShownChanged, hs]

theorem isEnabledChanged_isEnabled (ctx : Context) (now : Nat) (vm : ViewModel) :
    (isEnabledChanged ctx now vm).1.isEnabled = vm.isEnabled := by
  cases he : vm.isEnabled <;> cases hs : vm.isShown <;>
    simp [isEnabledChanged, isShownChanged, he, hs]

theorem isEnabledChanged_isShown (ctx : Context) (now : Nat) (vm : ViewModel) :
    (isEnabledChanged ctx now vm).1.isShown = (vm.isEnabled || vm.isShown) := by
  cases he : vm.isEnabled <;> cases hs : vm.isShown <;>
    simp [isEnabledChanged, isShownChanged, he, hs]

theorem setIsEnabled_isEnabled (ctx : Context) (now : Nat) (vm : ViewModel) (v : Bool) :
    (setIsEnabled ctx now vm v).1.isEnabled = v := by
  unfold setIsEnabled
  split
  · rfl
  · exact isEnabledChanged_isEnabled ctx now { vm with isEnabled := v }

/-! ### Claim theorems -/

/-- C1: for every view model whose `isEnabled` is false, transitioning
`isEnabled` to true (by property assignment or via `toggleEnabled`) leaves
`isShown` true afterwards: the handler forces `isShown = true` when it was
false, and an already-true `isShown` stays true. -/
theorem enable_forces_shown (ctx : Context) (now : Nat) (vm : ViewModel)
    (h : vm.isEnabled = false) :
    (setIsEnabled ctx now vm true).1.isShown = true ∧
    (toggleEnabled ctx now vm).1.isShown = true := by
  constructor
  · simp [setIsEnabled, h, isEnabledChanged_isShown]
  · simp [toggleEnabled, setIsEnabled, h, isEnabledChanged_isShown]

theorem enable_forces_shown_witness :
    (setIsEnabled ⟨true, false⟩ 5 (GeoDataSourceViewModel "t1") true).1.isShown = true ∧
    (toggleEnabled ⟨true, false⟩ 5 (GeoDataSourceViewModel "t1")).1.isShown = true :=
  enable_forces_shown ⟨true, false⟩ 5 (GeoDataSourceViewModel "t1") rfl

/-- C2: for every view model with `isEnabled = true` and `isShown = true`,
transitioning `isEnabled` to false leaves `isShown` unchanged (still true):
the disable path of the handler never writes `isShown`. -/
theorem disable_leaves_shown (ctx : Context) (now : Nat) (vm : ViewModel)
    (he : vm.isEnabled = true) (hs : vm.isShown = true) :
    (setIsEnabled ctx now vm false).1.isShown = true := by
  simp [setIsEnabled, he, isEnabledChanged_isShown, hs]

theorem disable_leaves_shown_witness :
    (setIsEnabled ⟨false, true⟩ 7
        { GeoDataSourceViewModel "t2" with isEnabled := true, isShown := true }
        false).1.isShown = true :=
  disable_leaves_shown ⟨false, true⟩ 7
    { GeoDataSourceViewModel "t2" with isEnabled := true, isShown := true } rfl rfl

/-- C3: for every enabled and shown view model whose rectangle is wider than
3.14 radians, `zoomTo` only logs the warning and returns: no camera flight,
no bounds fit, no analytics event, and no state change. -/
theorem zoomTo_wide_refuses (ctx : Context) (vm : ViewModel) (r : Rectangle)
    (he : vm.isEnabled = true) (hs : vm.isShown = true)
    (hr : vm.rectangle = some r) (hw : 314 / 100 < r.east - r.west) :
    zoomTo ctx vm =
      (vm, [Effect.consoleLog "Extent is wider than half the world.  Ignoring zoomto"]) := by
  simp [zoomTo, he, hs, hr, hw]

/-- A concrete enabled, shown view model with a 4-radian-wide rectangle. -/
def vmWide : ViewModel :=
  { GeoDataSourceViewModel "t3" with
    isEnabled := true
    isShown := true
    rectangle := some ⟨-2, 0, 2, 1⟩ }

theorem zoomTo_wide_refuses_witness :
    zoomTo ⟨true, true⟩ vmWide =
      (vmWide, [Effect.consoleLog "Extent is wider than half the world.  Ignoring zoomto"]) :=
  zoomTo_wide_refuses ⟨true, true⟩ vmWide ⟨-2, 0, 2, 1⟩ rfl rfl rfl (by norm_num)

/-- C4: `zoomTo` is a no-op whenever `isEnabled` is false, or `isShown` is
false, or the rectangle is undefined: no effects and no state change. -/
theorem zoomTo_guard_noop (ctx : Context) (vm : ViewModel)
    (h : vm.isEnabled = false ∨ vm.isShown = false ∨ vm.rectangle = none) :
    zoomTo ctx vm = (vm, []) := by
  rcases h with h | h | h
  · simp [zoomTo, h]
  · simp [zoomTo, h]
  · simp [zoomTo, h]

theorem zoomTo_guard_noop_witness :
    zoomTo ⟨true, true⟩ (GeoDataSourceViewModel "t4") = (GeoDataSourceViewModel "t4", []) :=
  zoomTo_guard_noop ⟨true, true⟩ (GeoDataSourceViewModel "t4") (Or.inl rfl)

/-- C8: `toggleEnabled` flips `isEnabled` and returns the new value; calling
it twice returns the original value on the second call and restores
`isEnabled` to its starting value. -/
theorem toggleEnabled_twice (ctx : Context) (n1 n2 : Nat) (vm : ViewModel) :
    (toggleEnabled ctx n1 vm).2.2 = !vm.isEnabled ∧
    (toggleEnabled ctx n1 vm).1.isEnabled = !vm.isEnabled ∧
    (toggleEnabled ctx n2 (toggleEnabled ctx n1 vm).1).2.2 = vm.isEnabled ∧
    (toggleEnabled ctx n2 (toggleEnabled ctx n1 vm).1).1.isEnabled = vm.isEnabled := by
  have h1 : ∀ m (v : ViewModel), (toggleEnabled ctx m v).1.isEnabled = !v.isEnabled := by
    intro m v
    simp [toggleEnabled, setIsEnabled_isEnabled]
  have h2 : ∀ m (v : ViewModel), (toggleEnabled ctx m v).2.2 = !v.isEnabled := by
    intro m v
    simp [toggleEnabled, setIsEnabled_isEnabled]
  refine ⟨h2 n1 vm, h1 n1 vm, ?_, ?_⟩
  · rw [h2 n2 _, h1 n1 vm, Bool.not_not]
  · rw [h1 n2 _, h1 n1 vm, Bool.not_not]

/-- C9: `zoomTo` never mutates the view model's `rectangle`: the padding is
applied to a clone, so the field holds the same bounds after the call. -/
theorem zoomTo_preserves_rectangle (ctx : Context) (vm : ViewModel) :
    (zoomTo ctx vm).1.rectangle = vm.rectangle := by
  unfold zoomTo
  split
  · rfl
  · split
    · rfl
    · split
      · rfl
      · rfl

/-- C5: for every rectangle that passes `zoomTo`'s guards, the flight
destination is the padded clone; a dimension narrower than `EPSILON3` grows
by exactly twice the epsilon, and a dimension at least `EPSILON3` wide is
left unchanged. -/
theorem zoomTo_pads (ctx : Context) (vm : ViewModel) (r : Rectangle)
    (he : vm.isEnabled = true) (hs : vm.isShown = true)
    (hr : vm.rectangle = some r) (hw : r.east - r.west ≤ 314 / 100) :
    (ctx.hasCesiumScene = true →
      Effect.cameraFlight (padRectangle (Rectangle.clone r)) ∈ (zoomTo ctx vm).2) ∧
    (ctx.hasLeafletMap = true →
      Effect.fitBounds (padRectangle (Rectangle.clone r)) ∈ (zoomTo ctx vm).2) ∧
    (r.east - r.west < EPSILON3 →
      (padRectangle (Rectangle.clone r)).east - (padRectangle (Rectangle.clone r)).west =
        (r.east - r.west) + 2 * EPSILON3) ∧
    (EPSILON3 ≤ r.east - r.west →
      (padRectangle (Rectangle.clone r)).east = r.east ∧
      (padRectangle (Rectangle.clone r)).west = r.west) ∧
    (r.north - r.south < EPSILON3 →
      (padRectangle (Rectangle.clone r)).north - (padRectangle (Rectangle.clone r)).south =
        (r.north - r.south) + 2 * EPSILON3) ∧
    (EPSILON3 ≤ r.north - r.south →
      (padRectangle (Rectangle.clone r)).north = r.north ∧
      (padRectangle (Rectangle.clone r)).south = r.south) := by
  have hclone : Rectangle.clone r = r := rfl
  have hnw : ¬(314 / 100 < r.east - r.west) := not_lt.mpr hw
  refine ⟨?_, ?_, ?_, ?_, ?_, ?_⟩
  · intro hc
    simp [zoomTo, he, hs, hr, hnw, hc]
  · intro hl
    simp [zoomTo, he, hs, hr, hnw, hl]
  · intro hww
    rw [hclone]
    by_cases hns : r.north - r.south < EPSILON3 <;> simp [padRectangle, hww, hns] <;> ring
  · intro hww
    rw [hclone]
    by_cases hns : r.north - r.south < EPSILON3 <;>
      simp [padRectangle, not_lt.mpr hww, hns]
  · intro hns
    rw [hclone]
    by_cases hww : r.east - r.west < EPSILON3 <;> simp [padRectangle, hww, hns] <;> ring
  · intro hns
    rw [hclone]
    by_cases hww : r.east - r.west < EPSILON3 <;>
      simp [padRectangle, hww, not_lt.mpr hns]

/-- A concrete enabled, shown view model with a degenerate point rectangle. -/
def vmPoint : ViewModel :=
  { GeoDataSourceViewModel "t5" with
    isEnabled := true
    isShown := true
    rectangle := some ⟨0, 0, 0, 0⟩ }

theorem zoomTo_pads_witness :
    Effect.cameraFlight (padRectangle (Rectangle.clone ⟨0, 0, 0, 0⟩)) ∈
      (zoomTo ⟨true, false⟩ vmPoint).2 ∧
    (padRectangle (Rectangle.clone ⟨0, 0, 0, 0⟩)).east -
        (padRectangle (Rectangle.clone ⟨0, 0, 0, 0⟩)).west =
      ((0 : ℚ) - 0) + 2 * EPSILON3 :=
  ⟨(zoomTo_pads ⟨true, false⟩ vmPoint ⟨0, 0, 0, 0⟩ rfl rfl rfl (by norm_num)).1 rfl,
    (zoomTo_pads ⟨true, false⟩ vmPoint ⟨0, 0, 0, 0⟩ rfl rfl rfl
      (by norm_num)).2.2.1 (by norm_num [EPSILON3])⟩

/-- C10: a view model that keeps the constructor default rectangle
(`Rectangle.MAX_VALUE`, width `2 * Math.PI > 3.14`) always takes the
oversized-rectangle refusal branch of `zoomTo` and never gets a camera
flight, even when enabled and shown. -/
theorem default_rectangle_refusal (ctx : Context) (vm : ViewModel) (s : String)
    (hr : vm.rectangle = some Rectangle.MAX_VALUE) :
    (GeoDataSourceViewModel s).rectangle = some Rectangle.MAX_VALUE ∧
    314 / 100 < Rectangle.MAX_VALUE.east - Rectangle.MAX_VALUE.west ∧
    (∀ d, Effect.cameraFlight d ∉ (zoomTo ctx vm).2) ∧
    (vm.isEnabled = true → vm.isShown = true →
      zoomTo ctx vm =
        (vm, [Effect.consoleLog "Extent is wider than half the world.  Ignoring zoomto"])) := by
  have hwide : 314 / 100 < Rectangle.MAX_VALUE.east - Rectangle.MAX_VALUE.west := by
    norm_num [Rectangle.MAX_VALUE, piDouble]
  refine ⟨rfl, hwide, ?_, ?_⟩
  · intro d
    by_cases he : vm.isEnabled
    · by_cases hs : vm.isShown
      · simp [zoomTo, he, hs, hr, hwide]
      · simp [zoomTo, he, hs]
    · simp [zoomTo, he]
  · intro he hs
    simp [zoomTo, he, hs, hr, hwide]

/-- A concrete enabled, shown view model keeping the default rectangle. -/
def vmDefaultRect : ViewModel :=
  { GeoDataSourceViewModel "t10" with
    isEnabled := true
    isShown := true }

theorem default_rectangle_refusal_witness :
    zoomTo ⟨true, true⟩ vmDefaultRect =
      (vmDefaultRect,
        [Effect.consoleLog "Extent is wider than half the world.  Ignoring zoomto"]) :=
  (default_rectangle_refusal ⟨true, true⟩ vmDefaultRect "t10" rfl).2.2.2 rfl rfl

/-- A shown view model whose `_shownDate` is undefined and whose
`_enabledDate` is the (falsy) timestamp 0. -/
def vmZeroEnabledDate : ViewModel :=
  { GeoDataSourceViewModel "t7" with
    isEnabled := true
    isShown := true
    enabledDate := some 0
    shownDate := none }

/-- C7 counterexample: on this transition of `isShown` to false the enabled
timestamp is set (to 0) and the shown timestamp is not, so the claim asks for
a duration of `(5000 - 0) / 1000 = 5` seconds, but the emitted "hidden" event
carries `none`: the code tests `_enabledDate` for JavaScript truthiness, and
0 is falsy. -/
theorem hidden_duration_zero_counterexample :
    vmZeroEnabledDate.isShown = true ∧
    vmZeroEnabledDate.shownDate = none ∧
    vmZeroEnabledDate.enabledDate = some 0 ∧
    durationSeconds 5000 0 = 5 ∧
    (setIsShown ⟨false, false⟩ 5000 vmZeroEnabledDate false).2 =
      [Effect.gaEvent "hidden" "t7" none] := by
  refine ⟨rfl, rfl, rfl, by decide, by decide⟩

/-- C7 (amended): on every transition of `isShown` to false, the "hidden"
analytics event carries the elapsed whole seconds computed from the shown
timestamp when it is defined, else from the enabled timestamp when it is
defined and nonzero (the code's truthiness test), and carries undefined
otherwise. -/
theorem hidden_event_duration (ctx : Context) (now : Nat) (vm : ViewModel)
    (hs : vm.isShown = true) :
    (setIsShown ctx now vm false).2 =
      (if ctx.hasCesiumScene then [Effect.hideInCesium] else []) ++
        (if ctx.hasLeafletMap then [Effect.hideInLeaflet] else []) ++
        [Effect.gaEvent "hidden" vm.name
          (match vm.shownDate with
           | some t => some (durationSeconds now t)
           | none =>
             match vm.enabledDate with
             | some t => if t = 0 then none else some (durationSeconds now t)
             | none => none)] := by
  have hne : (vm.isShown == false) = false := by simp [hs]
  rw [setIsShown, hne]
  simp only [Bool.false_eq_true, if_false]
  cases hsd : vm.shownDate with
  | some t => simp [isShownChanged, hsd]
  | none =>
    cases hed : vm.enabledDate with
    | some t =>
      by_cases ht : t = 0 <;> simp [isShownChanged, truthyTime, hsd, hed, ht]
    | none => simp [isShownChanged, truthyTime, hsd, hed]

/-- A concrete shown view model with a shown timestamp of 300 ms. -/
def vmShownAt : ViewModel :=
  { GeoDataSourceViewModel "t7w" with
    isShown := true
    shownDate := some 300 }

theorem hidden_event_duration_witness :
    (setIsShown ⟨false, false⟩ 2500 vmShownAt false).2 =
      [Effect.gaEvent "hidden" "t7w" (some 2)] := by
  rw [hidden_event_duration ⟨false, false⟩ 2500 vmShownAt rfl]
  decide

/-! ### The regex search agrees with the declarative occurrence predicate -/

theorem startsWithFold_iff (p : List Char) (cs : List Char) :
    startsWithFold p cs = true ↔ ∃ e b, cs = e ++ b ∧ e.map Char.toLower = p := by
  induction p generalizing cs with
  | nil =>
    simp only [startsWithFold, true_iff]
    exact ⟨[], cs, rfl, rfl⟩
  | cons p ps ih =>
    cases cs with
    | nil =>
      simp only [startsWithFold, Bool.false_eq_true, false_iff]
      rintro ⟨e, b, heq, hmap⟩
      rcases List.append_eq_nil.mp heq.symm with ⟨rfl, rfl⟩
      simp at hmap
    | cons c cs' =>
      simp only [startsWithFold, Bool.and_eq_true, beq_iff_eq, ih]
      constructor
      · rintro ⟨hp, e, b, rfl, he⟩
        exact ⟨c :: e, b, rfl, by simp [hp, he]⟩
      · rintro ⟨e, b, heq, he⟩
        cases e with
        | nil => simp at he
        | cons x e' =>
          rw [List.cons_append] at heq
          injection heq with h1 h2
          subst h1
          subst h2
          simp only [List.map_cons, List.cons.injEq] at he
          exact ⟨he.1, e', b, rfl, he.2⟩

theorem extMatch_iff (cs : List Char) :
    extMatch cs = true ↔ ∃ e b, cs = e ++ b ∧ e.map Char.toLower ∈ imageExts := by
  simp only [extMatch, Bool.or_eq_true, startsWithFold_iff, imageExts, List.mem_cons,
    List.mem_singleton, List.not_mem_nil, or_false]
  constructor
  · rintro (((⟨e, b, rfl, he⟩ | ⟨e, b, rfl, he⟩) | ⟨e, b, rfl, he⟩) | ⟨e, b, rfl, he⟩)
    · exact ⟨e, b, rfl, Or.inl he⟩
    · exact ⟨e, b, rfl, Or.inr (Or.inl he)⟩
    · exact ⟨e, b, rfl, Or.inr (Or.inr (Or.inl he))⟩
    · exact ⟨e, b, rfl, Or.inr (Or.inr (Or.inr he))⟩
  · rintro ⟨e, b, rfl, (he | he | he | he)⟩
    · exact Or.inl (Or.inl (Or.inl ⟨e, b, rfl, he⟩))
    · exact Or.inl (Or.inl (Or.inr ⟨e, b, rfl, he⟩))
    · exact Or.inl (Or.inr ⟨e, b, rfl, he⟩)
    · exact Or.inr ⟨e, b, rfl, he⟩

theorem imageUrlMatch_iff (cs : List Char) :
    imageUrlMatch cs = true ↔
      ∃ a d e b, cs = a ++ d :: (e ++ b) ∧ (d = '.' ∨ d = '/') ∧
        e.map Char.toLower ∈ imageExts := by
  induction cs with
  | nil =>
    simp only [imageUrlMatch, Bool.false_eq_true, false_iff]
    rintro ⟨a, d, e, b, heq, -, -⟩
    exact List.not_mem_nil d (heq ▸ List.mem_append_right a (List.mem_cons_self d _))
  | cons c rest ih =>
    simp only [imageUrlMatch, Bool.or_eq_true, Bool.and_eq_true, beq_iff_eq, extMatch_iff, ih]
    constructor
    · rintro (⟨hd, e, b, rfl, he⟩ | ⟨a, d, e, b, rfl, hd, he⟩)
      · exact ⟨[], c, e, b, rfl, hd, he⟩
      · exact ⟨c :: a, d, e, b, rfl, hd, he⟩
    · rintro ⟨a, d, e, b, heq, hd, he⟩
      cases a with
      | nil =>
        rw [List.nil_append] at heq
        injection heq with h1 h2
        subst h1
        exact Or.inl ⟨hd, e, b, h2, he⟩
      | cons x a' =>
        rw [List.cons_append] at heq
        injection heq with h1 h2
        exact Or.inr ⟨a', d, e, b, h2, hd, he⟩

theorem legendIsImage_eq_match (s : String) :
    legendIsImage (some s) = imageUrlMatch s.toList := by
  simp only [legendIsImage]
  split
  · next h =>
    have : s.toList = [] := List.length_eq_zero.mp h
    rw [this]
    rfl
  · rfl

/-- C6: `legendIsImage` is true exactly when the URL contains one of the
image extensions png, jpg, jpeg, gif preceded by a dot or slash, ignoring
letter case; in particular it is true for "http://x/legend.PNG", false for
"http://x/legend.svg", and false for an undefined or empty `legendUrl`. -/
theorem legendIsImage_spec :
    (∀ u : Option String, legendIsImage u = true ↔ ∃ s, u = some s ∧ SpecImageMatch s) ∧
    legendIsImage (some "http://x/legend.PNG") = true ∧
    legendIsImage (some "http://x/legend.svg") = false ∧
    legendIsImage none = false ∧
    legendIsImage (some "") = false := by
  refine ⟨?_, by decide, by decide, rfl, rfl⟩
  intro u
  cases u with
  | none => simp [legendIsImage]
  | some s =>
    rw [legendIsImage_eq_match, imageUrlMatch_iff]
    unfold SpecImageMatch
    constructor
    · intro h
      exact ⟨s, rfl, h⟩
    · rintro ⟨s', hs', h⟩
      injection hs' with hs'
      subst hs'
      exact h

end GeoData
